import Mathlib

/-!
Shallow embedding of `src/decode_storage_key_value.rs` from
`substrate-storage-key-value-decode`.

Hex strings are modelled as `List Char` (the code slices ASCII hex strings by
byte index, which coincides with character index on such strings).  A Rust
slice `&s[a..b]` panics when the bound exceeds the length; those panics, and
the `unreachable!` macro invocations, are modelled by the explicit outcome
`ParseOutcome.aborts`.  The Rust function returns `Option<TransparentStorageKey>`;
a `None` return (the code's only error value) is modelled by
`ParseOutcome.errNone`.

`StorageHasher`, `StorageEntryType` and `DecodeDifferent` come from the
external `frame_metadata` crate and are embedded with the constructors the
source matches on.  The fields named `module_prefix` / `storage_prefix` in the
Rust source are named `module_prefix_name` / `storage_prefix_name` here.
-/

inductive StorageHasher
  | Blake2_128
  | Blake2_256
  | Blake2_128Concat
  | Twox128
  | Twox256
  | Twox64Concat
  | Identity
  deriving DecidableEq, Repr

/-- `frame_metadata::DecodeDifferent`: metadata string fields are either still
SCALE-encoded (`Encode`) or already decoded to a `String` (`Decoded`).  The
source treats the `Encode` branch as `unreachable!`. -/
inductive DecodeDifferent
  | Encode (b : String)
  | Decoded (o : String)
  deriving DecidableEq, Repr

inductive StorageEntryType
  | Plain (value : DecodeDifferent)
  | Map (hasher : StorageHasher) (key : DecodeDifferent) (value : DecodeDifferent)
      (unused : Bool)
  | DoubleMap (hasher : StorageHasher) (key1 : DecodeDifferent) (key2 : DecodeDifferent)
      (value : DecodeDifferent) (key2_hasher : StorageHasher)
  deriving DecidableEq, Repr

/-- `crate::metadata::StorageMetadata`, as used by the source: the module
name, the storage item name and the storage entry type.  (The Rust fields are
`module_prefix` and `storage_prefix`.) -/
structure StorageMetadata where
  module_prefix_name : String
  storage_prefix_name : String
  ty : StorageEntryType
  deriving DecidableEq, Repr

inductive TransparentStorageType
  | Plain
  | Map (key : List Char) (value_ty : String)
  | DoubleMap (key1 : List Char) (key1_ty : String) (key2 : List Char) (key2_ty : String)
  deriving DecidableEq, Repr

structure TransparentStorageKey where
  module_prefix_name : String
  storage_prefix_name : String
  ty : TransparentStorageType
  deriving DecidableEq, Repr

/-- Outcome of `parse_storage_key`.  `ok` is `Some(key)`, `errNone` is a `None`
return (after printing a diagnostic), `aborts` is a panic (an `unreachable!`
or an out-of-range string slice). -/
inductive ParseOutcome
  | ok (k : TransparentStorageKey)
  | errNone
  | aborts
  deriving DecidableEq, Repr

/-- `pub const PREFIX_LENGTH: usize = 32 * 2;` -/
def PREFIX_LENGTH : Nat := 32 * 2

/-- `fn hash_length_of(hasher: &StorageHasher) -> usize`.  The `Identity` arm
is `unreachable!`, modelled as `none`; every other arm returns the length. -/
def hash_length_of : StorageHasher → Option Nat
  | StorageHasher.Blake2_128 => some 32
  | StorageHasher.Blake2_256 => some (32 * 2)
  | StorageHasher.Blake2_128Concat => some 32
  | StorageHasher.Twox128 => some 32
  | StorageHasher.Twox256 => some (32 * 2)
  | StorageHasher.Twox64Concat => some 16
  | StorageHasher.Identity => none

/-- `fn get_double_map_key1_length_table() -> HashMap<String, u32>` (the three
inserted entries; keys are distinct so an association list is faithful). -/
def get_double_map_key1_length_table : List (String × Nat) :=
  [("T::AccountId", 64), ("SessionIndex", 8), ("EraIndex", 8)]

/-- `fn get_key1_length(key1_ty: String) -> Option<u32>` -/
def get_key1_length (key1_ty : String) : Option Nat :=
  (get_double_map_key1_length_table.find? (fun p => p.1 == key1_ty)).map (·.2)

/-- Association-list lookup, modelling `HashMap::get`. -/
def lookupEntry : List (List Char × StorageMetadata) → List Char → Option StorageMetadata
  | [], _ => none
  | (k, v) :: rest, p => if k = p then some v else lookupEntry rest p

/-- `pub struct StoragePrefixLookupTable(pub HashMap<String, StorageMetadata>)` -/
structure StoragePrefixLookupTable where
  entries : List (List Char × StorageMetadata)

/-- `pub fn lookup(&self, prefix: &str) -> Option<&StorageMetadata>` -/
def StoragePrefixLookupTable.lookup (t : StoragePrefixLookupTable) (p : List Char) :
    Option StorageMetadata :=
  lookupEntry t.entries p

/-- `pub fn parse_storage_key(&self, storage_key: String) -> Option<TransparentStorageKey>`.

Control flow mirrors the source line by line:
* `&storage_key[..PREFIX_LENGTH]` panics when the key is shorter than 64;
* an absent prefix prints an error and returns `None`;
* `Plain` returns the two names;
* `Map` with a concat hasher slices off the digest (`&s[..len]` panics when
  too short) and keeps the rest; any other hasher is `unreachable!`;
* `DoubleMap` slices digest1, looks up key1's length (a miss returns `None`),
  slices key1 and digest2, keeps the rest as key2; non-concat hashers are
  `unreachable!`; `DecodeDifferent::Encode` type names are `unreachable!`. -/
def StoragePrefixLookupTable.parse_storage_key (t : StoragePrefixLookupTable)
    (storage_key : List Char) : ParseOutcome :=
  if storage_key.length < PREFIX_LENGTH then ParseOutcome.aborts
  else
    match t.lookup (storage_key.take PREFIX_LENGTH) with
    | none => ParseOutcome.errNone
    | some storage_metadata =>
      match storage_metadata.ty with
      | StorageEntryType.Plain _ =>
          ParseOutcome.ok
            ⟨storage_metadata.module_prefix_name, storage_metadata.storage_prefix_name,
              TransparentStorageType.Plain⟩
      | StorageEntryType.Map hasher _ value _ =>
          match hasher with
          | StorageHasher.Twox64Concat | StorageHasher.Blake2_128Concat =>
            let hashed_key_concat := storage_key.drop PREFIX_LENGTH
            match hash_length_of hasher with
            | none => ParseOutcome.aborts
            | some hash_length =>
              if hashed_key_concat.length < hash_length then ParseOutcome.aborts
              else
                let key := hashed_key_concat.drop hash_length
                match value with
                | DecodeDifferent.Encode _ => ParseOutcome.aborts
                | DecodeDifferent.Decoded o =>
                    ParseOutcome.ok
                      ⟨storage_metadata.module_prefix_name,
                        storage_metadata.storage_prefix_name,
                        TransparentStorageType.Map key o⟩
          | _ => ParseOutcome.aborts
      | StorageEntryType.DoubleMap hasher key1 key2 _ key2_hasher =>
          let hashed_key_concat := storage_key.drop PREFIX_LENGTH
          match hasher with
          | StorageHasher.Twox64Concat | StorageHasher.Blake2_128Concat =>
            match hash_length_of hasher with
            | none => ParseOutcome.aborts
            | some key1_hash_length =>
              if hashed_key_concat.length < key1_hash_length then ParseOutcome.aborts
              else
                let key1_hashed_key2_key2 := hashed_key_concat.drop key1_hash_length
                match key1 with
                | DecodeDifferent.Encode _ => ParseOutcome.aborts
                | DecodeDifferent.Decoded key1_ty =>
                  match get_key1_length key1_ty with
                  | none => ParseOutcome.errNone
                  | some key1_length =>
                    if key1_hashed_key2_key2.length < key1_length then ParseOutcome.aborts
                    else
                      let key1v := key1_hashed_key2_key2.take key1_length
                      let hashed_key2_key2 := key1_hashed_key2_key2.drop key1_length
                      match key2_hasher with
                      | StorageHasher.Twox64Concat | StorageHasher.Blake2_128Concat =>
                        match hash_length_of key2_hasher with
                        | none => ParseOutcome.aborts
                        | some key2_hash_length =>
                          if hashed_key2_key2.length < key2_hash_length then
                            ParseOutcome.aborts
                          else
                            let raw_key2 := hashed_key2_key2.drop key2_hash_length
                            match key2 with
                            | DecodeDifferent.Encode _ => ParseOutcome.aborts
                            | DecodeDifferent.Decoded key2_ty =>
                                ParseOutcome.ok
                                  ⟨storage_metadata.module_prefix_name,
                                    storage_metadata.storage_prefix_name,
                                    TransparentStorageType.DoubleMap key1v key1_ty
                                      raw_key2 key2_ty⟩
                      | _ => ParseOutcome.aborts
          | _ => ParseOutcome.aborts

/-- The concat family of hashers: exactly the arms the source's `match hasher`
accepts for `Map` and `DoubleMap` slicing. -/
def concat_family : StorageHasher → Bool
  | StorageHasher.Twox64Concat => true
  | StorageHasher.Blake2_128Concat => true
  | _ => false

/-- Modelled from the spec: `crate::metadata::Metadata` is not among the given
sources.  Per the spec's interface section, a metadata document is a list of
modules, each with a list of storage items; the source iterates both as
`(name, value)` pairs and ignores the names. -/
structure ModuleMetadata where
  storage : List (String × StorageMetadata)

structure Metadata where
  modules : List (String × ModuleMetadata)

/-- `HashMap::insert` semantics on an association list read by `lookupEntry`:
the new binding shadows (and here replaces) any earlier binding of the key. -/
def hm_insert (k : List Char) (v : StorageMetadata)
    (m : List (List Char × StorageMetadata)) : List (List Char × StorageMetadata) :=
  (k, v) :: m.filter (fun q => decide (q.1 ≠ k))

/-- The `(hex::encode(prefix), storage_metadata)` pairs produced by the
`From<Metadata>` implementation, in iteration order.

Modelled from the spec: `StorageMetadata::prefix()` lives in
`crate::metadata`, which is not among the given sources.  Per the spec it is
the module-name content hash concatenated with the item-name content hash,
hex-encoded; the hash functions are out of the core's scope, so the
computation is abstracted into the parameter `prefix_of`, a function of the
two names. -/
def table_pairs (prefix_of : String → String → List Char) (metadata : Metadata) :
    List (List Char × StorageMetadata) :=
  (metadata.modules.map (fun m =>
      m.2.storage.map (fun s =>
        (prefix_of s.2.module_prefix_name s.2.storage_prefix_name, s.2)))).join

/-- `impl From<Metadata> for StoragePrefixLookupTable`: collect the pairs into
a `HashMap`.  Collecting an iterator into a `HashMap` inserts the pairs in
order, so a later pair with the same key overwrites an earlier one. -/
def from_metadata (prefix_of : String → String → List Char) (metadata : Metadata) :
    StoragePrefixLookupTable :=
  ⟨(table_pairs prefix_of metadata).foldl (fun acc q => hm_insert q.1 q.2 acc) []⟩

/-- The last binding of `p` in a pair list, in insertion order: the value
`HashMap` collection keeps for a duplicated key. -/
def lastMatch : List (List Char × StorageMetadata) → List Char → Option StorageMetadata
  | [], _ => none
  | q :: rest, p =>
    match lastMatch rest p with
    | some v => some v
    | none => if q.1 = p then some q.2 else none

/-! ### Concrete instances used by witnesses and counterexamples -/

/-- A `Map` item using `Twox64Concat`, in the shape of `System::Account`. -/
def SM1 : StorageMetadata :=
  ⟨"System", "Account",
    StorageEntryType.Map StorageHasher.Twox64Concat (DecodeDifferent.Decoded "T::AccountId")
      (DecodeDifferent.Decoded "AccountInfo<T::Index, T::AccountData>") false⟩

def P1 : List Char := List.replicate 64 'a'

def K1 : List Char := P1 ++ List.replicate 20 'f'

def T1 : StoragePrefixLookupTable := ⟨[(P1, SM1)]⟩

/-- A `DoubleMap` item in the shape of `ImOnline::AuthoredBlocks`:
`Twox64Concat` over `SessionIndex`, then `Twox64Concat` over the second key. -/
def SM2 : StorageMetadata :=
  ⟨"ImOnline", "AuthoredBlocks",
    StorageEntryType.DoubleMap StorageHasher.Twox64Concat
      (DecodeDifferent.Decoded "SessionIndex") (DecodeDifferent.Decoded "T::ValidatorId")
      (DecodeDifferent.Decoded "u32") StorageHasher.Twox64Concat⟩

def P2 : List Char := List.replicate 64 'd'

def T2 : StoragePrefixLookupTable := ⟨[(P2, SM2)]⟩

/-- A well-formed double-map key for `T2`: prefix, 16-char digest1, 8-char
key1, 16-char digest2, 4 chars of key2. -/
def K2 : List Char :=
  P2 ++ (List.replicate 16 '0' ++ (List.replicate 8 '1' ++ (List.replicate 16 '2' ++
    List.replicate 4 '3')))

/-- A `Map` item declaring the non-concat `Identity` hasher. -/
def SM4 : StorageMetadata :=
  ⟨"Sudo", "Key",
    StorageEntryType.Map StorageHasher.Identity (DecodeDifferent.Decoded "T::AccountId")
      (DecodeDifferent.Decoded "T::AccountId") false⟩

def P4 : List Char := List.replicate 64 'b'

def T4 : StoragePrefixLookupTable := ⟨[(P4, SM4)]⟩

/-- A `DoubleMap` whose first hasher is non-concat (`Blake2_256`). -/
def SM4b : StorageMetadata :=
  ⟨"Staking", "ErasStakers",
    StorageEntryType.DoubleMap StorageHasher.Blake2_256
      (DecodeDifferent.Decoded "EraIndex") (DecodeDifferent.Decoded "T::AccountId")
      (DecodeDifferent.Decoded "Exposure") StorageHasher.Twox64Concat⟩

def T4b : StoragePrefixLookupTable := ⟨[(P4, SM4b)]⟩

/-- A `DoubleMap` whose second hasher is non-concat (`Identity`), with a
key1 type that is present in the length table. -/
def SM4c : StorageMetadata :=
  ⟨"Staking", "ErasValidatorPrefs",
    StorageEntryType.DoubleMap StorageHasher.Twox64Concat
      (DecodeDifferent.Decoded "EraIndex") (DecodeDifferent.Decoded "T::AccountId")
      (DecodeDifferent.Decoded "ValidatorPrefs") StorageHasher.Identity⟩

def T4c : StoragePrefixLookupTable := ⟨[(P4, SM4c)]⟩

def K4c : List Char := P4 ++ List.replicate 24 '0'

/-- `DoubleMap` items whose key1 type names (`Foo` / `Bar`) are absent from
the key-length table. -/
def SM6a : StorageMetadata :=
  ⟨"ModF", "ItemF",
    StorageEntryType.DoubleMap StorageHasher.Twox64Concat (DecodeDifferent.Decoded "Foo")
      (DecodeDifferent.Decoded "K2") (DecodeDifferent.Decoded "V") StorageHasher.Twox64Concat⟩

def SM6b : StorageMetadata :=
  ⟨"ModF", "ItemF",
    StorageEntryType.DoubleMap StorageHasher.Twox64Concat (DecodeDifferent.Decoded "Bar")
      (DecodeDifferent.Decoded "K2") (DecodeDifferent.Decoded "V") StorageHasher.Twox64Concat⟩

def P6 : List Char := List.replicate 64 'c'

def K6 : List Char := P6 ++ List.replicate 16 '0'

def T6a : StoragePrefixLookupTable := ⟨[(P6, SM6a)]⟩

def T6b : StoragePrefixLookupTable := ⟨[(P6, SM6b)]⟩

/-- Two `Plain` storage items that will be given the same prefix. -/
def SM7a : StorageMetadata := ⟨"ModA", "ItemA", StorageEntryType.Plain (DecodeDifferent.Decoded "u32")⟩

def SM7b : StorageMetadata := ⟨"ModB", "ItemB", StorageEntryType.Plain (DecodeDifferent.Decoded "u64")⟩

/-- A degenerate prefix computation that collides on every item. -/
def PF7 : String → String → List Char := fun _ _ => List.replicate 64 'p'

def MD7 : Metadata := ⟨[("M", ⟨[("A", SM7a), ("B", SM7b)]⟩)]⟩

/-- A one-item metadata document and an injective-enough prefix computation
for the round-trip witness. -/
def SM9 : StorageMetadata := ⟨"System", "Events", StorageEntryType.Plain (DecodeDifferent.Decoded "Vec<EventRecord>")⟩

def PF9 : String → String → List Char := fun _ _ => List.replicate 64 'e'

def MD9 : Metadata := ⟨[("System", ⟨[("Events", SM9)]⟩)]⟩

def K9 : List Char := List.replicate 64 'e'

/-- A `Plain` item for the trailing-content claim. -/
def SM10 : StorageMetadata := ⟨"Timestamp", "Now", StorageEntryType.Plain (DecodeDifferent.Decoded "T::Moment")⟩

def P10 : List Char := List.replicate 64 't'

def T10 : StoragePrefixLookupTable := ⟨[(P10, SM10)]⟩

/-! ### Helper lemmas -/

theorem PREFIX_LENGTH_eq : PREFIX_LENGTH = 64 := rfl

theorem drop_add (l : List Char) (a b c : Nat) (h : a + b = c) :
    (l.drop a).drop b = l.drop c := by
  subst h
  rw [List.drop_drop, Nat.add_comm]

theorem lookupEntry_filter_ne (m : List (List Char × StorageMetadata)) (k p : List Char) :
    lookupEntry (m.filter (fun q => decide (q.1 ≠ k))) p =
      if k = p then none else lookupEntry m p := by
  induction m with
  | nil => simp [lookupEntry]
  | cons q rest ih =>
    by_cases hqk : q.1 = k
    · simp only [List.filter_cons]
      rw [if_neg (by simp [hqk])]
      rw [ih]
      by_cases hkp : k = p
      · simp [hkp]
      · rw [if_neg hkp, if_neg hkp, lookupEntry]
        rw [if_neg (by rw [hqk]; exact hkp)]
    · simp only [List.filter_cons]
      rw [if_pos (by simp [hqk])]
      rw [lookupEntry, lookupEntry, ih]
      by_cases hqp : q.1 = p
      · rw [if_pos hqp, if_pos hqp, if_neg (by rw [← hqp]; exact fun hc => hqk hc.symm)]
      · rw [if_neg hqp, if_neg hqp]

theorem lookupEntry_hm_insert (m : List (List Char × StorageMetadata))
    (k : List Char) (v : StorageMetadata) (p : List Char) :
    lookupEntry (hm_insert k v m) p = if k = p then some v else lookupEntry m p := by
  unfold hm_insert
  rw [lookupEntry, lookupEntry_filter_ne]
  by_cases hkp : k = p
  · rw [if_pos hkp, if_pos hkp]
  · rw [if_neg hkp, if_neg hkp, if_neg hkp]

theorem lookupEntry_foldl_insert (l : List (List Char × StorageMetadata))
    (acc : List (List Char × StorageMetadata)) (p : List Char) :
    lookupEntry (l.foldl (fun acc q => hm_insert q.1 q.2 acc) acc) p =
      match lastMatch l p with
      | some v => some v
      | none => lookupEntry acc p := by
  induction l generalizing acc with
  | nil => rw [lastMatch]; rfl
  | cons q rest ih =>
    rw [List.foldl_cons, ih, lastMatch]
    cases lastMatch rest p with
    | some v => rfl
    | none =>
      rw [lookupEntry_hm_insert]
      by_cases hqp : q.1 = p
      · simp [hqp]
      · simp [hqp]

theorem lastMatch_mem (l : List (List Char × StorageMetadata)) (p : List Char)
    (v : StorageMetadata) (h : lastMatch l p = some v) : (p, v) ∈ l := by
  induction l with
  | nil => rw [lastMatch] at h; cases h
  | cons q rest ih =>
    rw [lastMatch] at h
    cases hr : lastMatch rest p with
    | some w =>
      rw [hr] at h
      exact List.mem_cons_of_mem _ (ih (hr.trans h))
    | none =>
      rw [hr] at h
      by_cases hqp : q.1 = p
      · rw [if_pos hqp] at h
        obtain ⟨q1, q2⟩ := q
        cases h
        cases hqp
        exact List.mem_cons_self _ _
      · rw [if_neg hqp] at h
        cases h

theorem table_pairs_mem (prefix_of : String → String → List Char) (md : Metadata)
    (q : List Char × StorageMetadata) (h : q ∈ table_pairs prefix_of md) :
    q.1 = prefix_of q.2.module_prefix_name q.2.storage_prefix_name := by
  unfold table_pairs at h
  rw [List.mem_join] at h
  obtain ⟨l, hl, hq⟩ := h
  rw [List.mem_map] at hl
  obtain ⟨m, _, rfl⟩ := hl
  rw [List.mem_map] at hq
  obtain ⟨s, _, rfl⟩ := hq
  rfl

theorem from_metadata_lookup_pf (prefix_of : String → String → List Char) (md : Metadata)
    (p : List Char) (sm : StorageMetadata)
    (h : (from_metadata prefix_of md).lookup p = some sm) :
    prefix_of sm.module_prefix_name sm.storage_prefix_name = p := by
  unfold from_metadata StoragePrefixLookupTable.lookup at h
  rw [lookupEntry_foldl_insert] at h
  cases hl : lastMatch (table_pairs prefix_of md) p with
  | none => rw [hl] at h; cases h
  | some v =>
    rw [hl] at h
    have hv : v = sm := by
      have := hl.symm.trans (hl.trans h)
      exact Option.some.inj h
    subst hv
    have hmem := lastMatch_mem _ _ _ hl
    have := table_pairs_mem prefix_of md _ hmem
    exact this.symm

theorem parse_ok_lookup (t : StoragePrefixLookupTable) (key : List Char)
    (out : TransparentStorageKey)
    (h : t.parse_storage_key key = ParseOutcome.ok out) :
    ∃ sm, t.lookup (key.take PREFIX_LENGTH) = some sm ∧
      out.module_prefix_name = sm.module_prefix_name ∧
      out.storage_prefix_name = sm.storage_prefix_name := by
  simp only [StoragePrefixLookupTable.parse_storage_key] at h
  repeat' split at h
  all_goals try exact ParseOutcome.noConfusion h
  all_goals cases h
  all_goals exact ⟨_, by assumption, rfl, rfl⟩

/-! ### Claim theorems -/

/-- Claim C10: when the first 64 characters of a key of length at least 64
resolve to a `Plain` descriptor, `parse_storage_key` returns the `Plain`
result carrying the descriptor's module and storage item names; everything
after the prefix is ignored, so arbitrary trailing content of any length is
accepted and does not affect the result. -/
theorem plain_ignores_trailing (t : StoragePrefixLookupTable) (p s : List Char)
    (sm : StorageMetadata) (v : DecodeDifferent)
    (hlen : p.length = 64)
    (hlook : t.lookup p = some sm)
    (hty : sm.ty = StorageEntryType.Plain v) :
    t.parse_storage_key (p ++ s) =
      ParseOutcome.ok ⟨sm.module_prefix_name, sm.storage_prefix_name,
        TransparentStorageType.Plain⟩ := by
  have htake : (p ++ s).take PREFIX_LENGTH = p := by
    rw [PREFIX_LENGTH_eq, ← hlen, List.take_left]
  simp only [StoragePrefixLookupTable.parse_storage_key, htake, hlook, hty]
  rw [if_neg (by rw [PREFIX_LENGTH_eq, List.length_append, hlen]; omega)]

theorem plain_ignores_trailing_witness :
    T10.parse_storage_key (P10 ++ ['f', 'f']) =
      ParseOutcome.ok ⟨"Timestamp", "Now", TransparentStorageType.Plain⟩ :=
  plain_ignores_trailing T10 P10 ['f', 'f'] SM10 (DecodeDifferent.Decoded "T::Moment")
    (by decide) (by decide) rfl

/-- Claim C3 (amended): for every lookup table and every input of length at
least 64 whose first 64 characters are not a key of the table,
`parse_storage_key` returns the error value (`None`, modelled `errNone`) and
never a partial result; inputs shorter than 64 characters instead panic on
the prefix slice (see the counterexample). -/
theorem unknown_prefix_returns_none (t : StoragePrefixLookupTable) (key : List Char)
    (hlen : 64 ≤ key.length)
    (hlook : t.lookup (key.take 64) = none) :
    t.parse_storage_key key = ParseOutcome.errNone := by
  simp only [StoragePrefixLookupTable.parse_storage_key, PREFIX_LENGTH_eq, hlook]
  rw [if_neg (by omega)]

theorem unknown_prefix_returns_none_witness :
    StoragePrefixLookupTable.parse_storage_key ⟨[]⟩ (List.replicate 64 'z') =
      ParseOutcome.errNone :=
  unknown_prefix_returns_none ⟨[]⟩ (List.replicate 64 'z') (by decide) rfl

/-- Counterexample to claim C3 as stated: an input shorter than 64 characters
does not produce an error value; the slice `&storage_key[..PREFIX_LENGTH]`
panics, modelled as `aborts`. -/
theorem unknown_prefix_short_input_panics :
    StoragePrefixLookupTable.parse_storage_key ⟨[]⟩ [] = ParseOutcome.aborts := by
  decide

/-- Claim C1: for every lookup table and key whose first 64 characters resolve
to a `Map` descriptor with a concat-family hasher (digest length `d` in hex
characters) and a decoded value type name, if the key has at least `64 + d`
characters then `parse_storage_key` returns the `Map` result whose recovered
key is the substring starting at position `64 + d`, so its length is exactly
`key.length - 64 - d`. -/
theorem map_slice_exact (t : StoragePrefixLookupTable) (key : List Char)
    (sm : StorageMetadata) (hasher : StorageHasher) (kd : DecodeDifferent)
    (value_ty : String) (unused : Bool) (d : Nat)
    (hlook : t.lookup (key.take 64) = some sm)
    (hty : sm.ty = StorageEntryType.Map hasher kd (DecodeDifferent.Decoded value_ty) unused)
    (hconcat : concat_family hasher = true)
    (hd : hash_length_of hasher = some d)
    (hlen : 64 + d ≤ key.length) :
    t.parse_storage_key key =
      ParseOutcome.ok ⟨sm.module_prefix_name, sm.storage_prefix_name,
        TransparentStorageType.Map (key.drop (64 + d)) value_ty⟩ ∧
    (key.drop (64 + d)).length = key.length - 64 - d := by
  cases hasher <;> simp [concat_family] at hconcat
  case Blake2_128Concat =>
    simp only [hash_length_of, Option.some.injEq] at hd
    subst hd
    constructor
    · simp only [StoragePrefixLookupTable.parse_storage_key, PREFIX_LENGTH_eq, hlook, hty,
        hash_length_of]
      rw [if_neg (by omega), if_neg (by rw [List.length_drop]; omega),
        drop_add key 64 32 (64 + 32) rfl]
    · rw [List.length_drop]; omega
  case Twox64Concat =>
    simp only [hash_length_of, Option.some.injEq] at hd
    subst hd
    constructor
    · simp only [StoragePrefixLookupTable.parse_storage_key, PREFIX_LENGTH_eq, hlook, hty,
        hash_length_of]
      rw [if_neg (by omega), if_neg (by rw [List.length_drop]; omega),
        drop_add key 64 16 (64 + 16) rfl]
    · rw [List.length_drop]; omega

theorem map_slice_exact_witness :
    T1.parse_storage_key K1 =
      ParseOutcome.ok ⟨"System", "Account",
        TransparentStorageType.Map (K1.drop (64 + 16))
          "AccountInfo<T::Index, T::AccountData>"⟩ ∧
    (K1.drop (64 + 16)).length = K1.length - 64 - 16 := by
  have h := map_slice_exact T1 K1 SM1 StorageHasher.Twox64Concat
    (DecodeDifferent.Decoded "T::AccountId") "AccountInfo<T::Index, T::AccountData>" false 16
    (by decide) rfl rfl rfl (by decide)
  simpa [SM1] using h

/-- Counterexample to claim C2 as stated: a 64-character key resolving to a
`DoubleMap` descriptor with concat hashers and a key1 type present in the
length table does not produce a `DoubleMap` result — the digest-1 slice
panics because no characters remain after the prefix. -/
theorem double_map_truncated_panics :
    T2.parse_storage_key P2 = ParseOutcome.aborts := by
  decide

/-- Claim C2 (amended): as claim C2, with the premise the counterexample
forces — the key must also have at least `64 + d1 + L + d2` characters
(and the type names must be decoded strings); then `parse_storage_key`
returns the `DoubleMap` result in which key1 is the `L` characters after
hasher1's digest and key2 is everything after hasher2's digest, and
`L + key2.length = key.length - 64 - d1 - d2`. -/
theorem double_map_slice_exact (t : StoragePrefixLookupTable) (key : List Char)
    (sm : StorageMetadata) (h1 h2 : StorageHasher) (k1ty k2ty : String)
    (vd : DecodeDifferent) (d1 d2 L : Nat)
    (hlook : t.lookup (key.take 64) = some sm)
    (hty : sm.ty = StorageEntryType.DoubleMap h1 (DecodeDifferent.Decoded k1ty)
      (DecodeDifferent.Decoded k2ty) vd h2)
    (hc1 : concat_family h1 = true)
    (hc2 : concat_family h2 = true)
    (hd1 : hash_length_of h1 = some d1)
    (hd2 : hash_length_of h2 = some d2)
    (hL : get_key1_length k1ty = some L)
    (hlen : 64 + d1 + L + d2 ≤ key.length) :
    t.parse_storage_key key =
      ParseOutcome.ok ⟨sm.module_prefix_name, sm.storage_prefix_name,
        TransparentStorageType.DoubleMap
          ((key.drop (64 + d1)).take L) k1ty
          (key.drop (64 + d1 + L + d2)) k2ty⟩ ∧
    L + (key.drop (64 + d1 + L + d2)).length = key.length - 64 - d1 - d2 := by
  cases h1 <;> simp [concat_family] at hc1
  all_goals cases h2 <;> simp [concat_family] at hc2
  all_goals simp only [hash_length_of, Option.some.injEq] at hd1 hd2
  all_goals subst hd1
  all_goals subst hd2
  all_goals refine ⟨?_, by rw [List.length_drop]; omega⟩
  all_goals
    (simp only [StoragePrefixLookupTable.parse_storage_key, PREFIX_LENGTH_eq, hlook, hty,
        hash_length_of, hL]
     rw [if_neg (by omega), if_neg (by rw [List.length_drop]; omega),
       if_neg (by rw [List.length_drop, List.length_drop]; omega),
       if_neg (by rw [List.length_drop, List.length_drop, List.length_drop]; omega)]
     rw [drop_add key 64 _ _ rfl, drop_add key _ _ _ rfl, drop_add key _ _ _ rfl])

theorem double_map_slice_exact_witness :
    T2.parse_storage_key K2 =
      ParseOutcome.ok ⟨"ImOnline", "AuthoredBlocks",
        TransparentStorageType.DoubleMap ((K2.drop (64 + 16)).take 8) "SessionIndex"
          (K2.drop (64 + 16 + 8 + 16)) "T::ValidatorId"⟩ ∧
    8 + (K2.drop (64 + 16 + 8 + 16)).length = K2.length - 64 - 16 - 16 := by
  have h := double_map_slice_exact T2 K2 SM2 StorageHasher.Twox64Concat
    StorageHasher.Twox64Concat "SessionIndex" "T::ValidatorId"
    (DecodeDifferent.Decoded "u32") 16 16 8
    (by decide) rfl rfl rfl rfl rfl (by decide) (by decide)
  simpa [SM2] using h

/-- Counterexample to claim C4 as stated: a key resolving to a `Map`
descriptor declaring the non-concat `Identity` hasher does not produce an
`UnsupportedHasher` error value — the `unreachable!` arm aborts the program,
modelled as `aborts`. -/
theorem unsupported_hasher_panics_cex :
    T4.parse_storage_key P4 = ParseOutcome.aborts := by
  decide

/-- Claim C4 (amended): a non-concat hasher on a keyed item makes
`parse_storage_key` abort via `unreachable!` instead of returning an error
value: (1) a `Map` with a non-concat hasher aborts; (2) a `DoubleMap` whose
first hasher is non-concat aborts; (3) a `DoubleMap` whose second hasher is
non-concat aborts only after key1's length has been resolved and sliced (the
two hashers are not checked independently). -/
theorem unsupported_hasher_aborts (t : StoragePrefixLookupTable) (key : List Char)
    (sm : StorageMetadata)
    (hlen : 64 ≤ key.length)
    (hlook : t.lookup (key.take 64) = some sm) :
    ((∃ hasher kd vd u, sm.ty = StorageEntryType.Map hasher kd vd u ∧
        concat_family hasher = false) →
      t.parse_storage_key key = ParseOutcome.aborts) ∧
    ((∃ h1 k1 k2 vd h2, sm.ty = StorageEntryType.DoubleMap h1 k1 k2 vd h2 ∧
        concat_family h1 = false) →
      t.parse_storage_key key = ParseOutcome.aborts) ∧
    (∀ h1 k1ty k2 vd h2 d1 L,
      sm.ty = StorageEntryType.DoubleMap h1 (DecodeDifferent.Decoded k1ty) k2 vd h2 →
      concat_family h1 = true → hash_length_of h1 = some d1 →
      get_key1_length k1ty = some L → 64 + d1 + L ≤ key.length →
      concat_family h2 = false →
      t.parse_storage_key key = ParseOutcome.aborts) := by
  refine ⟨?_, ?_, ?_⟩
  · rintro ⟨hasher, kd, vd, u, hty, hnc⟩
    cases hasher <;> simp [concat_family] at hnc
    all_goals
      (simp only [StoragePrefixLookupTable.parse_storage_key, PREFIX_LENGTH_eq, hlook, hty]
       rw [if_neg (by omega)])
  · rintro ⟨h1, k1, k2, vd, h2, hty, hnc⟩
    cases h1 <;> simp [concat_family] at hnc
    all_goals
      (simp only [StoragePrefixLookupTable.parse_storage_key, PREFIX_LENGTH_eq, hlook, hty]
       rw [if_neg (by omega)])
  · intro h1 k1ty k2 vd h2 d1 L hty hc1 hd1 hL hlen2 hnc2
    cases h1 <;> simp [concat_family] at hc1
    all_goals simp only [hash_length_of, Option.some.injEq] at hd1
    all_goals subst hd1
    all_goals cases h2 <;> simp [concat_family] at hnc2
    all_goals
      (simp only [StoragePrefixLookupTable.parse_storage_key, PREFIX_LENGTH_eq, hlook, hty,
          hash_length_of, hL]
       rw [if_neg (by omega), if_neg (by rw [List.length_drop]; omega),
         if_neg (by rw [List.length_drop, List.length_drop]; omega)])

theorem unsupported_hasher_aborts_witness :
    T4.parse_storage_key P4 = ParseOutcome.aborts ∧
    T4b.parse_storage_key P4 = ParseOutcome.aborts ∧
    T4c.parse_storage_key K4c = ParseOutcome.aborts :=
  ⟨(unsupported_hasher_aborts T4 P4 SM4 (by decide) (by decide)).1
      ⟨StorageHasher.Identity, DecodeDifferent.Decoded "T::AccountId",
        DecodeDifferent.Decoded "T::AccountId", false, rfl, rfl⟩,
   (unsupported_hasher_aborts T4b P4 SM4b (by decide) (by decide)).2.1
      ⟨StorageHasher.Blake2_256, DecodeDifferent.Decoded "EraIndex",
        DecodeDifferent.Decoded "T::AccountId", DecodeDifferent.Decoded "Exposure",
        StorageHasher.Twox64Concat, rfl, rfl⟩,
   (unsupported_hasher_aborts T4c K4c SM4c (by decide) (by decide)).2.2
      StorageHasher.Twox64Concat "EraIndex" (DecodeDifferent.Decoded "T::AccountId")
      (DecodeDifferent.Decoded "ValidatorPrefs") StorageHasher.Identity 16 8
      rfl rfl rfl rfl (by decide) rfl⟩

/-- Counterexample to claim C5 as stated: a key that resolves to a concat
`Map` descriptor but has no characters left after the prefix (fewer than the
16 hex characters of the `Twox64Concat` digest) does not produce a
`TruncatedKey` error value — the slice `&hashed_key_concat[..hash_length]`
panics, modelled as `aborts`. -/
theorem truncated_key_panics_cex :
    T1.parse_storage_key P1 = ParseOutcome.aborts := by
  decide

/-- Claim C5 (amended): for every key that resolves to a `Map` descriptor
with a concat-family hasher but has fewer characters remaining after the
64-character prefix than the hasher's digest length, `parse_storage_key`
aborts on an out-of-range slice; no `TruncatedKey` error value exists or is
returned. -/
theorem truncated_key_aborts (t : StoragePrefixLookupTable) (key : List Char)
    (sm : StorageMetadata) (hasher : StorageHasher) (kd vd : DecodeDifferent)
    (u : Bool) (d : Nat)
    (hlen64 : 64 ≤ key.length)
    (hlook : t.lookup (key.take 64) = some sm)
    (hty : sm.ty = StorageEntryType.Map hasher kd vd u)
    (hconcat : concat_family hasher = true)
    (hd : hash_length_of hasher = some d)
    (hshort : key.length < 64 + d) :
    t.parse_storage_key key = ParseOutcome.aborts := by
  cases hasher <;> simp [concat_family] at hconcat
  all_goals simp only [hash_length_of, Option.some.injEq] at hd
  all_goals subst hd
  all_goals
    (simp only [StoragePrefixLookupTable.parse_storage_key, PREFIX_LENGTH_eq, hlook, hty,
        hash_length_of]
     rw [if_neg (by omega), if_pos (by rw [List.length_drop]; omega)])

theorem truncated_key_aborts_witness :
    T1.parse_storage_key (P1 ++ ['0', '0']) = ParseOutcome.aborts :=
  truncated_key_aborts T1 (P1 ++ ['0', '0']) SM1 StorageHasher.Twox64Concat
    (DecodeDifferent.Decoded "T::AccountId")
    (DecodeDifferent.Decoded "AccountInfo<T::Index, T::AccountData>") false 16
    (by decide) (by decide) rfl rfl rfl (by decide)

/-- Counterexample to claim C6 as stated: the returned error on a key-length
table miss is the bare `None` (modelled `errNone`) and carries nothing — two
descriptors whose absent key1 type names differ (`Foo` and `Bar`) produce the
identical error value, so the error cannot carry the offending type name
(the printed diagnostic is a fixed message that does not include the name
either). -/
theorem unknown_key_length_carries_nothing :
    T6a.parse_storage_key K6 = ParseOutcome.errNone ∧
    T6b.parse_storage_key K6 = ParseOutcome.errNone := by
  constructor <;> decide

/-- Claim C6 (amended): for every key resolving to a `DoubleMap` descriptor
with a concat first hasher, a decoded key1 type name absent from the
key-length table, and enough characters for the first digest,
`parse_storage_key` returns `None` (modelled `errNone`): no crash and no
wrongly sliced result — but the returned value does not carry the offending
type name, and the printed diagnostic is a fixed message without it, so the
name is not reported at all. -/
theorem unknown_key_length_returns_none (t : StoragePrefixLookupTable) (key : List Char)
    (sm : StorageMetadata) (h1 h2 : StorageHasher) (k1ty : String)
    (k2 vd : DecodeDifferent) (d1 : Nat)
    (hlook : t.lookup (key.take 64) = some sm)
    (hty : sm.ty = StorageEntryType.DoubleMap h1 (DecodeDifferent.Decoded k1ty) k2 vd h2)
    (hc1 : concat_family h1 = true)
    (hd1 : hash_length_of h1 = some d1)
    (hlen : 64 + d1 ≤ key.length)
    (hmiss : get_key1_length k1ty = none) :
    t.parse_storage_key key = ParseOutcome.errNone := by
  cases h1 <;> simp [concat_family] at hc1
  all_goals simp only [hash_length_of, Option.some.injEq] at hd1
  all_goals subst hd1
  all_goals
    (simp only [StoragePrefixLookupTable.parse_storage_key, PREFIX_LENGTH_eq, hlook, hty,
        hash_length_of, hmiss]
     rw [if_neg (by omega), if_neg (by rw [List.length_drop]; omega)])

theorem unknown_key_length_returns_none_witness :
    T6a.parse_storage_key K6 = ParseOutcome.errNone :=
  unknown_key_length_returns_none T6a K6 SM6a StorageHasher.Twox64Concat
    StorageHasher.Twox64Concat "Foo" (DecodeDifferent.Decoded "K2")
    (DecodeDifferent.Decoded "V") 16 (by decide) rfl rfl rfl (by decide) rfl

/-- Counterexample to claim C7 as stated: two storage items given the same
prefix do not make table construction fail — the `From<Metadata>`
implementation has no error path, and the later item silently overwrites the
earlier one in the collected `HashMap`. -/
theorem duplicate_prefix_overwrites :
    (from_metadata PF7 MD7).lookup (List.replicate 64 'p') = some SM7b ∧ SM7a ≠ SM7b := by
  constructor <;> decide

/-- Claim C7 (amended): the lookup table builder never rejects construction;
collecting into a `HashMap` makes the last storage item (in iteration order)
with a given prefix silently overwrite every earlier one, so the built
table's lookup agrees with `lastMatch` over the generated `(prefix, item)`
pairs. -/
theorem builder_last_duplicate_wins (prefix_of : String → String → List Char)
    (md : Metadata) (p : List Char) :
    (from_metadata prefix_of md).lookup p = lastMatch (table_pairs prefix_of md) p := by
  unfold from_metadata StoragePrefixLookupTable.lookup
  rw [lookupEntry_foldl_insert]
  cases lastMatch (table_pairs prefix_of md) p <;> rfl

/-- Counterexample to claim C8 as stated: the `Identity` hasher does not have
a zero-length digest in `hash_length_of` — that arm is `unreachable!`
(modelled as `none`), so the function aborts rather than returning 0. -/
theorem identity_digest_not_zero :
    hash_length_of StorageHasher.Identity ≠ some 0 := by
  decide

/-- Claim C8 (amended): the digest length in hex characters is a fixed
function of the declared hasher — Blake2_128 and Twox128 give 32, Blake2_256
and Twox256 give 64, Blake2_128Concat gives 32, Twox64Concat gives 16 — but
`Identity` has no digest length: the `Identity` arm of `hash_length_of` is
`unreachable!` (modelled `none`), and it is never reached from
`parse_storage_key`, whose slicing only invokes `hash_length_of` on
concat-family hashers. -/
theorem hash_length_values :
    hash_length_of StorageHasher.Blake2_128 = some 32 ∧
    hash_length_of StorageHasher.Twox128 = some 32 ∧
    hash_length_of StorageHasher.Blake2_256 = some 64 ∧
    hash_length_of StorageHasher.Twox256 = some 64 ∧
    hash_length_of StorageHasher.Blake2_128Concat = some 32 ∧
    hash_length_of StorageHasher.Twox64Concat = some 16 ∧
    hash_length_of StorageHasher.Identity = none := by
  decide

/-- Claim C9: for every lookup table built from a metadata document and every
key on which `parse_storage_key` succeeds, the module and item names in the
result are exactly those of the table entry stored under the key's first 64
hex characters, so re-deriving the prefix from the returned names (via the
prefix computation used at build time) reproduces the original prefix. -/
theorem parse_prefix_roundtrip (prefix_of : String → String → List Char) (md : Metadata)
    (key : List Char) (out : TransparentStorageKey)
    (h : (from_metadata prefix_of md).parse_storage_key key = ParseOutcome.ok out) :
    (∃ sm, (from_metadata prefix_of md).lookup (key.take PREFIX_LENGTH) = some sm ∧
      out.module_prefix_name = sm.module_prefix_name ∧
      out.storage_prefix_name = sm.storage_prefix_name) ∧
    prefix_of out.module_prefix_name out.storage_prefix_name = key.take PREFIX_LENGTH := by
  obtain ⟨sm, hlook, hmod, hsto⟩ := parse_ok_lookup _ _ _ h
  refine ⟨⟨sm, hlook, hmod, hsto⟩, ?_⟩
  rw [hmod, hsto]
  exact from_metadata_lookup_pf _ _ _ _ hlook

theorem parse_prefix_roundtrip_witness :
    (∃ sm, (from_metadata PF9 MD9).lookup (K9.take PREFIX_LENGTH) = some sm ∧
      "System" = sm.module_prefix_name ∧ "Events" = sm.storage_prefix_name) ∧
    PF9 "System" "Events" = K9.take PREFIX_LENGTH :=
  parse_prefix_roundtrip PF9 MD9 K9 ⟨"System", "Events", TransparentStorageType.Plain⟩
    (by decide)
